import Mathlib

/-!
# Verification of the kern serial-scale core

Shallow embedding of the `WebSerialTransport` transport layer
(line framing, reading parser, connect/disconnect/send state machine,
read loop), the `Recorder`, the `ChartManager` and the application's
`reading`-event handler, together with proofs of the specified
properties.

Strings are modelled as `List Char`; JS numbers as `ℚ` (the numeric
literals involved are exact decimal fractions, parsed exactly).
-/

namespace Kern

/-- JS whitespace characters relevant here (argument of `trim` / `\s`). -/
def isSpaceJS (c : Char) : Bool :=
  c = ' ' || c = '\t' || c = '\n' || c = '\r' || c = '\x0b' || c = '\x0c'

/-- Characters admitted in a unit token: the regex class `[a-zA-Z%/]`. -/
def isUnitChar (c : Char) : Bool :=
  c.isAlpha || c = '%' || c = '/'

/-- `line.replace(/\r/g, '')` — delete every carriage return. -/
def stripCR (s : List Char) : List Char :=
  s.filter (fun c => c ≠ '\r')

/-- JS `String.prototype.trim`: drop whitespace from both ends. -/
def trimJS (s : List Char) : List Char :=
  ((s.dropWhile isSpaceJS).reverse.dropWhile isSpaceJS).reverse

/-- The per-line clean-up in the read loop: `line.replace(/\r/g, '').trim()`. -/
def cleanLine (s : List Char) : List Char :=
  trimJS (stripCR s)

/-- Numeric value of a digit character. -/
def digitVal (c : Char) : Nat := c.toNat - '0'.toNat

/-- Value of a digit string read in base 10. -/
def digitsToNat (ds : List Char) : Nat :=
  ds.foldl (fun n c => 10 * n + digitVal c) 0

/-- `parseFloat` on a literal `[-]ddd[.ddd]`, exactly (as a rational). -/
def litToRat (neg : Bool) (ints : List Char) (frac : List Char) : ℚ :=
  let v : ℚ := (digitsToNat ints : ℚ) + (digitsToNat frac : ℚ) / (10 : ℚ) ^ frac.length
  if neg then -v else v

/-- Match of `\d+(\.\d+)?` at the head of `s` (which must start with a
digit): integer digits, fractional digits (empty when the optional group
does not match — as in the regex, a `.` not followed by a digit is left
unconsumed), and the remainder of the string. -/
def munchDigits (s : List Char) : List Char × List Char × List Char :=
  let ints := s.takeWhile Char.isDigit
  let r1 := s.dropWhile Char.isDigit
  match r1 with
  | '.' :: r2 =>
    let frac := r2.takeWhile Char.isDigit
    if frac = [] then (ints, [], r1)
    else (ints, frac, r2.dropWhile Char.isDigit)
  | _ => (ints, [], r1)

/-- The full literal match `-?\d+(\.\d+)?` at a position known to start a
literal: consume a leading minus when present, then the digit groups.
Returns (sign, integer digits, fractional digits, rest). -/
def munchFrom (s : List Char) : Bool × List Char × List Char × List Char :=
  match s with
  | [] => (false, munchDigits [])
  | c :: rest =>
    if c = '-' then (true, munchDigits rest)
    else (false, munchDigits (c :: rest))

/-- Attempt of the regex `-?\d+(\.\d+)?` anchored at the current position,
with JS backtracking semantics: a leading `-` is consumed only when a
digit follows, and a bare `-` (or a non-digit) fails. -/
def matchNumAt (s : List Char) : Option (Bool × List Char × List Char × List Char) :=
  match s with
  | [] => none
  | c :: rest =>
    if c = '-' then
      match rest with
      | [] => none
      | d :: _ => if d.isDigit then some (munchFrom (c :: rest)) else none
    else
      if c.isDigit then some (munchFrom (c :: rest)) else none

/-- Leftmost-match scan of `-?\d+(\.\d+)?` over the line, as JS regex
search does: try each position left to right. -/
def scanNum : List Char → Option (Bool × List Char × List Char × List Char)
  | [] => none
  | c :: cs =>
    match matchNumAt (c :: cs) with
    | some r => some r
    | none => scanNum cs

/-- A parsed reading: `{ raw, value, unit }`.  `value = none` models the
JS `null`. -/
structure Reading where
  raw : List Char
  value : Option ℚ
  unit : List Char
  deriving Repr, DecidableEq

/-- Build the Reading from a successful literal match: the value is the
parsed literal, the unit the (possibly empty) run of letters/percent/slash
characters after the whitespace following the literal. -/
def mkReading (line : List Char) (m : Bool × List Char × List Char × List Char) : Reading :=
  match m with
  | (neg, ints, frac, rest) =>
    { raw := line
      value := some (litToRat neg ints frac)
      unit := (rest.dropWhile isSpaceJS).takeWhile isUnitChar }

/-- `WebSerialTransport.#parseLine`'s pure core: match
`/(-?\d+(\.\d+)?)\s*([a-zA-Z%/]*)/` against the (already trimmed) line;
on a match, `value = parseFloat(match[1])` and `unit = match[3] || ''`;
otherwise `value = null`, `unit = ''`.  `raw` is always the line. -/
def parseLine (line : List Char) : Reading :=
  match scanNum line with
  | some m => mkReading line m
  | none => { raw := line, value := none, unit := [] }

/-! ## Spec-side parser (for the refinement claim C1)

Written from the spec's words: “locate the first substring matching an
optional leading minus sign, digits, optional decimal point and digits
(a floating-point literal), followed by an optional trailing unit token
composed of letters/percent/slash characters”. -/

/-- Whether a numeric literal of the spec's shape starts at the head of
`s`: an optional leading minus immediately followed by a digit, or a
digit. -/
def startsLit (s : List Char) : Bool :=
  match s with
  | [] => false
  | c :: rest =>
    if c = '-' then
      match rest with
      | [] => false
      | d :: _ => d.isDigit
    else c.isDigit

/-- Position of the first numeric literal in the line, scanning left to
right. -/
def firstLitIdx : List Char → Option Nat
  | [] => none
  | c :: cs =>
    if startsLit (c :: cs) then some 0
    else (firstLitIdx cs).map (· + 1)

/-- Modelled from the spec: the `ReadingParser.parse` contract of §4.2,
defined by locating the first numeric-literal position in the line and
reading the literal and the trailing unit token there; absent value and
empty unit when no literal occurs. -/
def specParse (line : List Char) : Reading :=
  match firstLitIdx line with
  | none => { raw := line, value := none, unit := [] }
  | some i => mkReading line (munchFrom (line.drop i))

/-! ### Equivalence of the two parsers -/

theorem matchNumAt_eq (s : List Char) :
    matchNumAt s = if startsLit s then some (munchFrom s) else none := by
  match s with
  | [] => rfl
  | c :: rest =>
    simp only [matchNumAt, startsLit]
    by_cases hc : c = '-'
    · subst hc
      cases rest with
      | nil => simp
      | cons d r => simp
    · simp only [if_neg hc]

theorem scanNum_eq (line : List Char) :
    scanNum line = (firstLitIdx line).map (fun i => munchFrom (line.drop i)) := by
  induction line with
  | nil => rfl
  | cons c cs ih =>
    simp only [scanNum, matchNumAt_eq, firstLitIdx]
    by_cases h : startsLit (c :: cs)
    · simp [h]
    · simp only [h, if_neg, Bool.false_eq_true, ite_false]
      rw [ih]
      cases firstLitIdx cs <;> simp

theorem parseLine_eq_specParse (line : List Char) :
    parseLine line = specParse line := by
  unfold parseLine specParse
  rw [scanNum_eq]
  cases firstLitIdx line <;> simp



/-- C1: `parse` behaves as the best-effort scan the spec defines — the
code's regex-based parser agrees with the spec's "first numeric literal
plus optional trailing unit token" description on every line (value,
unit and raw), raw always preserves the line, and the spec's four
examples hold. -/
theorem parse_conforms_to_spec :
    (∀ line : List Char, parseLine line = specParse line) ∧
    (∀ line : List Char, (parseLine line).raw = line) ∧
    parseLine "S S     120.45 g".toList =
      { raw := "S S     120.45 g".toList, value := some (12045 / 100), unit := "g".toList } ∧
    parseLine "120.45".toList =
      { raw := "120.45".toList, value := some (12045 / 100), unit := [] } ∧
    parseLine "ES".toList =
      { raw := "ES".toList, value := none, unit := [] } ∧
    parseLine "-3.2 %".toList =
      { raw := "-3.2 %".toList, value := some (-(32 : ℚ) / 10), unit := "%".toList } := by
  refine ⟨parseLine_eq_specParse, ?_, ?_, ?_, ?_, ?_⟩
  · intro line
    unfold parseLine
    cases h : scanNum line
    · rfl
    · rename_i m
      obtain ⟨neg, ints, frac, rest⟩ := m
      rfl
  · have h : parseLine "S S     120.45 g".toList =
        { raw := "S S     120.45 g".toList,
          value := some (litToRat false ['1','2','0'] ['4','5']), unit := "g".toList } := by rfl
    have h1 : digitsToNat ['1','2','0'] = 120 := by decide
    have h2 : digitsToNat ['4','5'] = 45 := by decide
    rw [h]; simp [litToRat, h1, h2]; norm_num
  · have h : parseLine "120.45".toList =
        { raw := "120.45".toList,
          value := some (litToRat false ['1','2','0'] ['4','5']), unit := [] } := by rfl
    have h1 : digitsToNat ['1','2','0'] = 120 := by decide
    have h2 : digitsToNat ['4','5'] = 45 := by decide
    rw [h]; simp [litToRat, h1, h2]; norm_num
  · rfl
  · have h : parseLine "-3.2 %".toList =
        { raw := "-3.2 %".toList,
          value := some (litToRat true ['3'] ['2']), unit := "%".toList } := by rfl
    have h1 : digitsToNat ['3'] = 3 := by decide
    have h2 : digitsToNat ['2'] = 2 := by decide
    rw [h]; simp [litToRat, h1, h2]; norm_num


/-! ## Line framing (the read loop's buffering logic)

`#readLoop` keeps a pending `buffer`, appends each decoded chunk,
splits on `'\n'`, treats all segments but the last as complete lines,
and retains the last segment as the new buffer. -/

/-- `s.split('\n')` on character lists: the segments between newline
characters.  Never empty; the final element is the text after the last
newline (the whole string when there is none). -/
def splitNl : List Char → List (List Char)
  | [] => [[]]
  | c :: cs =>
    if c = '\n' then [] :: splitNl cs
    else
      match splitNl cs with
      | [] => [[c]]
      | l :: ls => (c :: l) :: ls

theorem splitNl_ne_nil (s : List Char) : splitNl s ≠ [] := by
  match s with
  | [] => simp [splitNl]
  | c :: cs =>
    simp only [splitNl]
    split
    · simp
    · cases h : splitNl cs <;> simp

/-- One step of the buffering logic: `buffer += chunk; lines =
buffer.split('\n'); buffer = lines.pop()` — the complete lines are all
segments but the last, and the last segment is the new buffer. -/
def feed (buf chunk : List Char) : List (List Char) × List Char :=
  let parts := splitNl (buf ++ chunk)
  (parts.dropLast, parts.getLastD [])

/-- Feeding a sequence of chunks one at a time, accumulating the
complete lines, starting from an empty buffer. -/
def runFramer (chunks : List (List Char)) : List (List Char) × List Char :=
  chunks.foldl (fun acc chunk => (acc.1 ++ (feed acc.2 chunk).1, (feed acc.2 chunk).2)) ([], [])

theorem splitNl_cons_nl (s : List Char) : splitNl ('\n' :: s) = [] :: splitNl s := by
  simp [splitNl]

theorem splitNl_cons_of_ne (c : Char) (s : List Char) (hc : c ≠ '\n') :
    splitNl (c :: s) = (c :: (splitNl s).headD []) :: (splitNl s).tail := by
  simp only [splitNl, if_neg hc]
  cases h : splitNl s with
  | nil => exact absurd h (splitNl_ne_nil s)
  | cons l ls => rfl

theorem splitNl_no_newline (s : List Char) (h : '\n' ∉ s) : splitNl s = [s] := by
  induction s with
  | nil => rfl
  | cons c cs ih =>
    simp only [List.mem_cons, not_or] at h
    rw [splitNl_cons_of_ne c cs (fun hq => h.1 hq.symm), ih h.2]
    rfl

theorem splitNl_getLastD_no_newline (s : List Char) :
    '\n' ∉ (splitNl s).getLastD [] := by
  induction s with
  | nil => simp [splitNl]
  | cons c cs ih =>
    by_cases hc : c = '\n'
    · subst hc
      rw [splitNl_cons_nl, List.getLastD_cons]
      exact ih
    · rw [splitNl_cons_of_ne c cs hc, List.getLastD_cons]
      cases h : splitNl cs with
      | nil => exact absurd h (splitNl_ne_nil cs)
      | cons l ls =>
        rw [h] at ih
        cases ls with
        | nil =>
          simp only [List.getLastD_cons, List.getLastD] at ih ⊢
          simp only [List.tail_cons, List.headD_cons, List.getLastD]
          simp only [List.mem_cons, not_or]
          exact ⟨Ne.symm hc, ih⟩
        | cons y ys =>
          simp only [List.getLastD_cons] at ih
          simp only [List.tail_cons, List.getLastD_cons]
          exact ih

/-- The framing identity: splitting `a ++ b` is splitting `a`, keeping
all complete segments, and re-splitting the pending segment glued to
`b`. -/
theorem splitNl_append (a b : List Char) :
    splitNl (a ++ b) =
      (splitNl a).dropLast ++ splitNl ((splitNl a).getLastD [] ++ b) := by
  induction a with
  | nil => simp [splitNl]
  | cons c cs ih =>
    by_cases hc : c = '\n'
    · subst hc
      rw [List.cons_append, splitNl_cons_nl, splitNl_cons_nl,
        List.dropLast_cons_of_ne_nil (splitNl_ne_nil cs), List.getLastD_cons, ih,
        List.cons_append]
    · obtain ⟨l, ls, h⟩ : ∃ l ls, splitNl cs = l :: ls := by
        cases h : splitNl cs with
        | nil => exact absurd h (splitNl_ne_nil cs)
        | cons l ls => exact ⟨l, ls, rfl⟩
      rw [List.cons_append, splitNl_cons_of_ne c (cs ++ b) hc, splitNl_cons_of_ne c cs hc, h]
      rw [h] at ih
      cases ls with
      | nil =>
        simp only [List.dropLast_single, List.getLastD_cons, List.getLastD_nil,
          List.nil_append, List.headD_cons, List.tail_cons] at ih ⊢
        rw [ih, List.cons_append, splitNl_cons_of_ne c (l ++ b) hc]
      | cons y ys =>
        simp only [List.getLastD_cons, List.headD_cons, List.tail_cons,
          List.dropLast_cons₂] at ih ⊢
        rw [ih]
        simp only [List.cons_append, List.headD_cons, List.tail_cons, List.getLastD_cons]


theorem getLastD_append_right {α : Type} (X : List α) (y : α) (ys : List α) (d : α) :
    (X ++ y :: ys).getLastD d = (y :: ys).getLastD d := by
  induction X generalizing d with
  | nil => rfl
  | cons x xs ih =>
    rw [List.cons_append, List.getLastD_cons, ih x, List.getLastD_cons, List.getLastD_cons]

/-- Invariant of the read loop's fold: starting from a newline-free
pending buffer, the accumulated complete lines and the final buffer are
exactly those of splitting the buffer followed by the whole remaining
input. -/
theorem runFramer_aux (chunks : List (List Char)) (out : List (List Char)) (buf : List Char)
    (h : '\n' ∉ buf) :
    chunks.foldl (fun acc chunk => (acc.1 ++ (feed acc.2 chunk).1, (feed acc.2 chunk).2))
        (out, buf) =
      (out ++ (splitNl (buf ++ chunks.flatten)).dropLast,
       (splitNl (buf ++ chunks.flatten)).getLastD []) := by
  induction chunks generalizing out buf with
  | nil =>
    simp only [List.foldl_nil, List.flatten_nil, List.append_nil]
    rw [splitNl_no_newline buf h]
    simp
  | cons ch rest ih =>
    simp only [List.foldl_cons, List.flatten_cons]
    have hstep : (out ++ (feed buf ch).1, (feed buf ch).2) =
        (out ++ (splitNl (buf ++ ch)).dropLast, (splitNl (buf ++ ch)).getLastD []) := rfl
    rw [hstep, ih _ _ (splitNl_getLastD_no_newline (buf ++ ch))]
    have key := splitNl_append (buf ++ ch) rest.flatten
    obtain ⟨y, ys, hy⟩ : ∃ y ys,
        splitNl ((splitNl (buf ++ ch)).getLastD [] ++ rest.flatten) = y :: ys := by
      cases hq : splitNl ((splitNl (buf ++ ch)).getLastD [] ++ rest.flatten) with
      | nil => exact absurd hq (splitNl_ne_nil _)
      | cons y ys => exact ⟨y, ys, rfl⟩
    rw [← List.append_assoc buf ch, key, hy, List.dropLast_append_cons,
      getLastD_append_right, List.append_assoc]

/-- C2: chunk-boundary invariance of the line framing — feeding any
chunk decomposition of an input through the read loop's buffering logic
produces the same complete raw lines, the same complete trimmed lines
and the same final pending buffer as feeding the whole input at once. -/
theorem framing_chunk_invariance (chunks : List (List Char)) :
    runFramer chunks = runFramer [chunks.flatten] ∧
    (runFramer chunks).1.map cleanLine = (runFramer [chunks.flatten]).1.map cleanLine := by
  have h1 := runFramer_aux chunks [] [] (by simp)
  have h2 := runFramer_aux [chunks.flatten] [] [] (by simp)
  unfold runFramer
  rw [h1, h2]
  simp


/-! ## Transport events and the read loop's event discipline -/

/-- The event surface of `WebSerialTransport` (payloads as emitted by
`#emit`). -/
inductive Ev where
  | log (msg : List Char)
  | reading (r : Reading)
  | error (msg : List Char)
  | connected
  | disconnected
  deriving Repr, DecidableEq

/-- Whether an event is a `reading` event. -/
def isReadingEv : Ev → Bool
  | Ev.reading _ => true
  | _ => false

/-- Whether an event is an `error` event. -/
def isErrorEv : Ev → Bool
  | Ev.error _ => true
  | _ => false

/-- `#parseLine line`: first the `log` event `'Received: ' + line`, then
exactly one `reading` event with the parse of the line. -/
def parseLineEvents (line : List Char) : List Ev :=
  [Ev.log ("Received: ".toList ++ line), Ev.reading (parseLine line)]

/-- Events produced for one complete raw line in the read loop: clean it
(`replace(/\r/g, '').trim()`), skip it when empty, otherwise hand it to
`#parseLine`. -/
def lineEvents (rawLine : List Char) : List Ev :=
  if cleanLine rawLine = [] then [] else parseLineEvents (cleanLine rawLine)

/-- The read loop body over a sequence of delivered chunks: frame each
chunk against the pending buffer and emit the events of every complete
line, in order. -/
def readEvents (chunks : List (List Char)) : List Ev :=
  (chunks.foldl
    (fun acc chunk =>
      (acc.1 ++ ((feed acc.2 chunk).1.map lineEvents).flatten, (feed acc.2 chunk).2))
    ([], [])).1

/-- The complete, cleaned, non-empty lines of a whole input. -/
def emittedLines (s : List Char) : List (List Char) :=
  ((splitNl s).dropLast.map cleanLine).filter (fun l => l ≠ [])

theorem lineEvents_flatten (lines : List (List Char)) :
    (lines.map lineEvents).flatten =
      (((lines.map cleanLine).filter (fun l => l ≠ [])).map parseLineEvents).flatten := by
  induction lines with
  | nil => rfl
  | cons x xs ih =>
    simp only [List.map_cons, List.flatten_cons, List.filter_cons]
    by_cases hx : cleanLine x = []
    · simp [lineEvents, hx, ih]
    · simp [lineEvents, hx, ih]

theorem readEvents_aux (chunks : List (List Char)) (evs : List Ev) (buf : List Char)
    (h : '\n' ∉ buf) :
    chunks.foldl
        (fun acc chunk =>
          (acc.1 ++ ((feed acc.2 chunk).1.map lineEvents).flatten, (feed acc.2 chunk).2))
        (evs, buf) =
      (evs ++ ((splitNl (buf ++ chunks.flatten)).dropLast.map lineEvents).flatten,
       (splitNl (buf ++ chunks.flatten)).getLastD []) := by
  induction chunks generalizing evs buf with
  | nil =>
    simp only [List.foldl_nil, List.flatten_nil, List.append_nil]
    rw [splitNl_no_newline buf h]
    simp
  | cons ch rest ih =>
    simp only [List.foldl_cons, List.flatten_cons]
    have hstep :
        (evs ++ ((feed buf ch).1.map lineEvents).flatten, (feed buf ch).2) =
          (evs ++ (((splitNl (buf ++ ch)).dropLast).map lineEvents).flatten,
           (splitNl (buf ++ ch)).getLastD []) := rfl
    rw [hstep, ih _ _ (splitNl_getLastD_no_newline (buf ++ ch))]
    have key := splitNl_append (buf ++ ch) rest.flatten
    obtain ⟨y, ys, hy⟩ : ∃ y ys,
        splitNl ((splitNl (buf ++ ch)).getLastD [] ++ rest.flatten) = y :: ys := by
      cases hq : splitNl ((splitNl (buf ++ ch)).getLastD [] ++ rest.flatten) with
      | nil => exact absurd hq (splitNl_ne_nil _)
      | cons y ys => exact ⟨y, ys, rfl⟩
    rw [← List.append_assoc buf ch, key, hy, List.dropLast_append_cons,
      getLastD_append_right]
    simp [List.append_assoc]

theorem countP_reading_parseLineEvents (ls : List (List Char)) :
    ((ls.map parseLineEvents).flatten).countP isReadingEv = ls.length := by
  induction ls with
  | nil => rfl
  | cons x xs ih =>
    simp only [List.map_cons, List.flatten_cons, List.countP_append, ih]
    simp [parseLineEvents, List.countP_cons, isReadingEv]
    omega

/-- C3: for every delivery of an input across any chunk split, the read
loop emits, per complete non-empty cleaned line and in arrival order,
exactly the pair `log ('Received: ' + line)` then `reading (parse
line)`; the whole event stream depends only on the concatenated input
(empty trimmed lines contribute nothing), and the number of `reading`
events equals the number of complete non-empty lines. -/
theorem readEvents_eq (chunks : List (List Char)) :
    readEvents chunks = ((emittedLines chunks.flatten).map parseLineEvents).flatten := by
  unfold readEvents
  rw [readEvents_aux chunks [] [] (by simp)]
  simp only [List.nil_append]
  rw [lineEvents_flatten]
  rfl

theorem read_loop_event_discipline (chunks : List (List Char)) :
    readEvents chunks = ((emittedLines chunks.flatten).map parseLineEvents).flatten ∧
    (readEvents chunks).countP isReadingEv = (emittedLines chunks.flatten).length := by
  refine ⟨readEvents_eq chunks, ?_⟩
  rw [readEvents_eq, countP_reading_parseLineEvents]


/-! ## Transport lifecycle state machine

`WebSerialTransport` holds `#port`, `#writer`, `#reader` and
`#readLoopRunning`.  `connect`/`disconnect`/`send` are modelled as pure
functions of this state; the points where the underlying Web Serial
operations may throw are explicit parameters. -/

/-- How far a port acquisition got: `requested` after
`navigator.serial.requestPort()` succeeded, `opened` after
`port.open(...)` succeeded. -/
inductive PortStatus where
  | requested
  | opened
  deriving Repr, DecidableEq

/-- The private fields of `WebSerialTransport`. -/
structure TransportState where
  port : Option PortStatus
  writer : Bool
  reader : Bool
  readLoopRunning : Bool
  deriving Repr, DecidableEq

/-- A freshly constructed transport: all fields null/false. -/
def initialTransport : TransportState :=
  { port := none, writer := false, reader := false, readLoopRunning := false }

/-- Which step of `connect()` throws, if any. -/
inductive ConnectOutcome where
  | ok
  | failRequest
  | failOpen
  | failGetWriter
  deriving Repr, DecidableEq

/-- `connect()`: request the port, open it, acquire the writer, emit
`connected` and a `log`, start the read loop (which takes the reader and
sets the running flag).  The `catch` emits `error` and rethrows; the
field assignments made before the throwing step remain (the Boolean in
the result records whether the returned promise rejects). -/
def connect (st : TransportState) (o : ConnectOutcome) (errMsg : List Char) :
    TransportState × List Ev × Bool :=
  match o with
  | ConnectOutcome.failRequest =>
    (st, [Ev.error ("Connect failed: ".toList ++ errMsg)], true)
  | ConnectOutcome.failOpen =>
    ({ st with port := some PortStatus.requested },
      [Ev.error ("Connect failed: ".toList ++ errMsg)], true)
  | ConnectOutcome.failGetWriter =>
    ({ st with port := some PortStatus.opened },
      [Ev.error ("Connect failed: ".toList ++ errMsg)], true)
  | ConnectOutcome.ok =>
    ({ st with port := some PortStatus.opened, writer := true,
               reader := true, readLoopRunning := true },
      [Ev.connected, Ev.log "Serial port opened (9600 8N1)".toList], false)

/-- `disconnect()`: clear the running flag, then three independent
`try` blocks — cancel/release the reader (failure swallowed, leaving the
field set), release the writer (failure swallowed likewise), close the
port (failure emits `error`) — and finally emit `disconnected` and a
`log`.  `readerFails`/`writerFails`/`closeFails` say whether the
corresponding underlying operation throws when attempted. -/
def disconnect (st : TransportState) (readerFails writerFails closeFails : Bool)
    (errMsg : List Char) : TransportState × List Ev :=
  let st0 := { st with readLoopRunning := false }
  let st1 := if st0.reader && !readerFails then { st0 with reader := false } else st0
  let st2 := if st1.writer && !writerFails then { st1 with writer := false } else st1
  let st3 := if st2.port.isSome && !closeFails then { st2 with port := none } else st2
  let errEvs :=
    if st2.port.isSome && closeFails then [Ev.error ("Close error: ".toList ++ errMsg)]
    else []
  (st3, errEvs ++ [Ev.disconnected, Ev.log "Serial port closed".toList])

/-- `send(cmd)`: with no writer, emit `error` and return (no write, no
throw); with a writer, transmit `cmd.trim() + CR LF` and emit a `log`.
Result: state, events, bytes written (if any), whether the call rejects
into the caller. -/
def send (st : TransportState) (cmd : List Char) :
    TransportState × List Ev × Option (List Char) × Bool :=
  if st.writer then
    (st, [Ev.log ("Sent: ".toList ++ trimJS cmd)], some (trimJS cmd ++ ['\r', '\n']), false)
  else
    (st, [Ev.error "Not connected".toList], none, false)

/-- `#readLoop`'s exit paths: the `while` condition observed the cleared
flag, the stream signalled `done`, or `read()` raised. -/
inductive LoopExit where
  | stopped
  | streamDone
  | readError
  deriving Repr, DecidableEq

/-- The read loop from start to termination: it produces the per-line
events for the chunks delivered before the exit, then — only for a read
error raised while `#readLoopRunning` is still set (`runningAtExit`
records the flag at that moment; `disconnect()` clears it before
cancelling the reader) — one `error` event; the `finally` always
releases the reader. -/
def readLoopExit (st : TransportState) (chunks : List (List Char)) (exitKind : LoopExit)
    (runningAtExit : Bool) (errMsg : List Char) : TransportState × List Ev :=
  let errEvs :=
    if exitKind = LoopExit.readError && runningAtExit then
      [Ev.error ("Read error: ".toList ++ errMsg)]
    else []
  ({ st with reader := false, readLoopRunning := runningAtExit },
   readEvents chunks ++ errEvs)


/-! ## Claims about the lifecycle operations -/

/-- C4 counterexample: `connect()` failing at the writer-acquisition
step (after `port.open` succeeded) completes with the opened port still
held — the port field is not released, refuting the claim that every
resource acquired before the failing step is released before
`connect()` completes. -/
theorem connect_half_open_counterexample :
    ((connect initialTransport ConnectOutcome.failGetWriter ['e']).1).port ≠ none ∧
    ((connect initialTransport ConnectOutcome.failGetWriter ['e']).1).port
      = some PortStatus.opened := by
  exact ⟨by decide, rfl⟩

/-- C4 (amended): if `connect()` fails at any step it emits exactly the
one `error` event and propagates the cause to the caller (the returned
operation rejects); but resources acquired before the failing step are
not released — the port field keeps whatever was acquired (unchanged on
request failure, the requested port on open failure, the opened port on
writer-acquisition failure), and no other field changes. -/
theorem connect_failure_behavior (st : TransportState) (o : ConnectOutcome) (msg : List Char)
    (h : o ≠ ConnectOutcome.ok) :
    (connect st o msg).2.1 = [Ev.error ("Connect failed: ".toList ++ msg)] ∧
    (connect st o msg).2.2 = true ∧
    ((connect st o msg).1).port =
      (match o with
        | ConnectOutcome.failRequest => st.port
        | ConnectOutcome.failOpen => some PortStatus.requested
        | _ => some PortStatus.opened) ∧
    ((connect st o msg).1).writer = st.writer ∧
    ((connect st o msg).1).reader = st.reader := by
  cases o with
  | ok => exact absurd rfl h
  | failRequest => exact ⟨rfl, rfl, rfl, rfl, rfl⟩
  | failOpen => exact ⟨rfl, rfl, rfl, rfl, rfl⟩
  | failGetWriter => exact ⟨rfl, rfl, rfl, rfl, rfl⟩

/-- Witness for `connect_failure_behavior` at a concrete failing step. -/
theorem connect_failure_behavior_witness :
    (connect initialTransport ConnectOutcome.failGetWriter ['e']).2.1
        = [Ev.error ("Connect failed: ".toList ++ ['e'])] ∧
    (connect initialTransport ConnectOutcome.failGetWriter ['e']).2.2 = true ∧
    ((connect initialTransport ConnectOutcome.failGetWriter ['e']).1).port
        = some PortStatus.opened ∧
    ((connect initialTransport ConnectOutcome.failGetWriter ['e']).1).writer
        = initialTransport.writer ∧
    ((connect initialTransport ConnectOutcome.failGetWriter ['e']).1).reader
        = initialTransport.reader :=
  connect_failure_behavior initialTransport ConnectOutcome.failGetWriter ['e'] (by decide)

/-- C5: `disconnect()` is idempotent — on an already-disconnected
transport (no reader, writer or port held) it only clears the running
flag and emits no `error`, whatever teardown failures would occur; and
repeating `disconnect()` after a completed one leaves the transport in
the same fully-released state. -/
theorem disconnect_idempotent :
    (∀ (st : TransportState) (fr fw fc : Bool) (m : List Char),
      st.reader = false → st.writer = false → st.port = none →
        (disconnect st fr fw fc m).1 = { st with readLoopRunning := false } ∧
        (disconnect st fr fw fc m).2.countP isErrorEv = 0) ∧
    (∀ (st : TransportState) (m m2 : List Char) (fr fw fc : Bool),
      (disconnect ((disconnect st false false false m).1) fr fw fc m2).1 =
        (disconnect st false false false m).1) := by
  constructor
  · intro st fr fw fc m h1 h2 h3
    obtain ⟨p, w, r, run⟩ := st
    simp only at h1 h2 h3
    subst h1; subst h2; subst h3
    constructor
    · simp [disconnect]
    · simp [disconnect, isErrorEv]
  · intro st m m2 fr fw fc
    obtain ⟨p, w, r, run⟩ := st
    cases p <;> cases w <;> cases r <;> simp [disconnect]

/-- Witness for `disconnect_idempotent` on a fresh (disconnected)
transport with every teardown step set to fail. -/
theorem disconnect_idempotent_witness :
    (disconnect initialTransport true true true []).1
        = { initialTransport with readLoopRunning := false } ∧
    (disconnect initialTransport true true true []).2.countP isErrorEv = 0 :=
  disconnect_idempotent.1 initialTransport true true true [] rfl rfl rfl

/-- C6: teardown is best-effort — each release step runs regardless of
earlier failures (the writer and port outcomes do not depend on the
reader/writer failure flags), only a port-close failure surfaces as an
`error` event (exactly one), and the event list always ends with
`disconnected` followed by the closing `log`. -/
theorem disconnect_best_effort (st : TransportState) (fr fw fc : Bool) (m : List Char) :
    ((disconnect st fr fw fc m).1).reader = (st.reader && fr) ∧
    ((disconnect st fr fw fc m).1).writer = (st.writer && fw) ∧
    ((disconnect st fr fw fc m).1).port = (if st.port.isSome && !fc then none else st.port) ∧
    (disconnect st fr fw fc m).2.countP isErrorEv = (if st.port.isSome && fc then 1 else 0) ∧
    (∃ pre, (disconnect st fr fw fc m).2 =
      pre ++ [Ev.disconnected, Ev.log "Serial port closed".toList]) := by
  obtain ⟨p, w, r, run⟩ := st
  cases p <;> cases w <;> cases r <;> cases fr <;> cases fw <;> cases fc <;>
    exact ⟨rfl, rfl, rfl, rfl, ⟨_, rfl⟩⟩

/-- C7: `send` with no writer emits `error`, writes nothing and does
not throw into the caller; `send` with a writer transmits exactly the
(already-trimmed) command token followed by CR LF. -/
theorem send_contract (st : TransportState) (cmd : List Char) :
    (st.writer = false →
      send st cmd = (st, [Ev.error "Not connected".toList], none, false)) ∧
    (st.writer = true → trimJS cmd = cmd →
      send st cmd =
        (st, [Ev.log ("Sent: ".toList ++ cmd)], some (cmd ++ ['\r', '\n']), false)) := by
  constructor
  · intro h
    simp [send, h]
  · intro h ht
    simp [send, h, ht]

/-- Witness for `send_contract`: disconnected and connected sends of
the token `SI`. -/
theorem send_contract_witness :
    send initialTransport "SI".toList
        = (initialTransport, [Ev.error "Not connected".toList], none, false) ∧
    send { initialTransport with writer := true } "SI".toList
        = ({ initialTransport with writer := true },
           [Ev.log ("Sent: ".toList ++ "SI".toList)],
           some ("SI".toList ++ ['\r', '\n']), false) :=
  ⟨(send_contract initialTransport "SI".toList).1 rfl,
   (send_contract { initialTransport with writer := true } "SI".toList).2 rfl (by decide)⟩

theorem countP_error_parseLineEvents (ls : List (List Char)) :
    ((ls.map parseLineEvents).flatten).countP isErrorEv = 0 := by
  induction ls with
  | nil => rfl
  | cons x xs ih =>
    simp only [List.map_cons, List.flatten_cons, List.countP_append, ih]
    simp [parseLineEvents, List.countP_cons, isErrorEv]

theorem countP_error_readEvents (chunks : List (List Char)) :
    (readEvents chunks).countP isErrorEv = 0 := by
  rw [readEvents_eq, countP_error_parseLineEvents]

/-- C8: a read error raised while the transport is intentionally
stopping (running flag already cleared) is suppressed — no `error`
event; raised while still intended to be running it surfaces exactly
one `error` event; the loop terminates and the reader is released in
both cases. -/
theorem read_error_handling (st : TransportState) (chunks : List (List Char))
    (running : Bool) (msg : List Char) :
    ((readLoopExit st chunks LoopExit.readError running msg).2).countP isErrorEv
      = (if running then 1 else 0) ∧
    ((readLoopExit st chunks LoopExit.readError running msg).1).reader = false := by
  constructor
  · cases running with
    | false =>
      simp [readLoopExit, List.countP_append, countP_error_readEvents]
    | true =>
      simp [readLoopExit, List.countP_append, countP_error_readEvents,
        List.countP_cons, isErrorEv]
  · rfl


/-! ## Application layer: chart, statistics, recorder, reading handler -/

/-- `ChartManager`'s observable data: the pushed points
`{x: timestamp, y: value}` and the time window (seconds). -/
structure ChartState where
  data : List (Nat × ℚ)
  timeWindow : Nat
  deriving Repr, DecidableEq

/-- `ChartManager.#prune(now)`: shift leading points whose timestamp is
strictly older than `now - timeWindow·1000` ms. -/
def prune (cs : ChartState) (now : Nat) : ChartState :=
  { cs with
    data := cs.data.dropWhile (fun p => (p.1 : ℤ) < (now : ℤ) - (cs.timeWindow : ℤ) * 1000) }

/-- `ChartManager.addReading(value)` for the numeric, non-NaN values the
reading handler passes: push `{x: now, y: value}`, then prune. -/
def chartAdd (cs : ChartState) (now : Nat) (v : ℚ) : ChartState :=
  prune { cs with data := cs.data ++ [(now, v)] } now

/-- `Recorder`'s private fields: `#data` (timestamp, value, unit) and
`#recording`. -/
structure RecorderState where
  data : List (Nat × ℚ × List Char)
  recording : Bool
  deriving Repr, DecidableEq

/-- A freshly constructed `Recorder`. -/
def recorderInit : RecorderState := { data := [], recording := false }

/-- `Recorder.start()`: discard the data, set recording. -/
def recorderStart (_r : RecorderState) : RecorderState := { data := [], recording := true }

/-- `Recorder.stop()`: clear the recording flag, keep the data. -/
def recorderStop (r : RecorderState) : RecorderState := { r with recording := false }

/-- `Recorder.addReading(value, unit)`: append a timestamped entry when
recording, otherwise return unchanged. -/
def recorderAdd (r : RecorderState) (now : Nat) (v : ℚ) (u : List Char) : RecorderState :=
  if r.recording then { r with data := r.data ++ [(now, v, u)] } else r

/-- `Recorder.download()`: `false` and no file when no data was
recorded; otherwise `true` and a file holding exactly the stored rows
(the CSV text/Blob mechanics are external collaborators). -/
def recorderDownload (r : RecorderState) : Bool × Option (List (Nat × ℚ × List Char)) :=
  if r.data.isEmpty then (false, none) else (true, some r.data)

/-- Modelled from the spec: `StatsTracker` (src/js/stats.js is not part
of the sources) is "a stateless numeric accumulator consumed by the
core but not part of it"; its state is represented by the sequence of
values fed to `addValue`. -/
structure StatsState where
  values : List ℚ
  deriving Repr, DecidableEq

/-- `StatsTracker.addValue(v)` as observed at the interface. -/
def statsAdd (s : StatsState) (v : ℚ) : StatsState := { values := s.values ++ [v] }

/-- The application state touched by the `reading` handler: the
readout display fields, the last-reading timestamp, and the chart,
statistics and recorder components. -/
structure AppState where
  readoutValue : Option ℚ
  readoutUnit : List Char
  readoutTime : Nat
  lastReadingTime : Nat
  chart : ChartState
  stats : StatsState
  recorder : RecorderState
  deriving Repr, DecidableEq

/-- The initial application state (chart window 300 s as constructed). -/
def appInit : AppState :=
  { readoutValue := none, readoutUnit := [], readoutTime := 0, lastReadingTime := 0,
    chart := { data := [], timeWindow := 300 }, stats := { values := [] },
    recorder := recorderInit }

/-- The `reading` listener of `wireConnection`: record the arrival time,
update the readout from the reading, and only when `value !== null`
feed chart, statistics and recorder. -/
def handleReading (st : AppState) (now : Nat) (r : Reading) : AppState :=
  let st1 := { st with lastReadingTime := now, readoutValue := r.value,
                       readoutUnit := r.unit, readoutTime := now }
  match r.value with
  | none => st1
  | some v =>
    { st1 with chart := chartAdd st1.chart now v,
               stats := statsAdd st1.stats v,
               recorder := recorderAdd st1.recorder now v r.unit }

/-- C9: a `reading` whose value is null changes only the readout fields
and the last-reading timestamp — chart, statistics and recorder are
untouched; a non-null reading updates all three through their add
operations. -/
theorem reading_handler_frame (st : AppState) (now : Nat) (r : Reading) :
    (r.value = none →
      handleReading st now r =
        { st with lastReadingTime := now, readoutValue := none,
                  readoutUnit := r.unit, readoutTime := now }) ∧
    (∀ v, r.value = some v →
      (handleReading st now r).chart = chartAdd st.chart now v ∧
      (handleReading st now r).stats = statsAdd st.stats v ∧
      (handleReading st now r).recorder = recorderAdd st.recorder now v r.unit ∧
      (handleReading st now r).lastReadingTime = now) := by
  constructor
  · intro h
    simp [handleReading, h]
  · intro v h
    simp [handleReading, h]

/-- Witness for `reading_handler_frame`: the handler applied to the
parses of the spec's example lines `ES` (null value) and `120.45`. -/
theorem reading_handler_frame_witness :
    handleReading appInit 5 (parseLine "ES".toList) =
      { appInit with lastReadingTime := 5, readoutValue := none,
                     readoutUnit := (parseLine "ES".toList).unit, readoutTime := 5 } ∧
    ((handleReading appInit 5 (parseLine "120.45".toList)).chart
        = chartAdd appInit.chart 5 (litToRat false ['1','2','0'] ['4','5']) ∧
     (handleReading appInit 5 (parseLine "120.45".toList)).stats
        = statsAdd appInit.stats (litToRat false ['1','2','0'] ['4','5']) ∧
     (handleReading appInit 5 (parseLine "120.45".toList)).recorder
        = recorderAdd appInit.recorder 5 (litToRat false ['1','2','0'] ['4','5'])
            (parseLine "120.45".toList).unit ∧
     (handleReading appInit 5 (parseLine "120.45".toList)).lastReadingTime = 5) :=
  ⟨(reading_handler_frame appInit 5 (parseLine "ES".toList)).1 rfl,
   (reading_handler_frame appInit 5 (parseLine "120.45".toList)).2
     (litToRat false ['1','2','0'] ['4','5']) rfl⟩

theorem recorderAdd_foldl (s : RecorderState) (entries : List (Nat × ℚ × List Char))
    (h : s.recording = true) :
    entries.foldl (fun a e => recorderAdd a e.1 e.2.1 e.2.2) s =
      { data := s.data ++ entries, recording := true } := by
  induction entries generalizing s with
  | nil =>
    simp only [List.foldl_nil]
    obtain ⟨d, rec⟩ := s
    simp only at h
    subst h
    simp
  | cons e es ih =>
    simp only [List.foldl_cons]
    rw [ih _ (by simp [recorderAdd, h])]
    simp [recorderAdd, h]

/-- C10: `addReading` appends exactly when recording is active (calls
before `start()` or after `stop()` leave data and count unchanged);
`start()` always discards previous data, so a download after
`start()` followed by some recorded readings exports exactly those
readings; `download()` returns `false` and produces no file when
nothing was recorded. -/
theorem recorder_contract :
    (∀ (r : RecorderState) (t : Nat) (v : ℚ) (u : List Char),
      r.recording = false → recorderAdd r t v u = r) ∧
    (∀ (r : RecorderState) (t : Nat) (v : ℚ) (u : List Char),
      r.recording = true → (recorderAdd r t v u).data = r.data ++ [(t, v, u)]) ∧
    (∀ (r : RecorderState) (t : Nat) (v : ℚ) (u : List Char),
      recorderAdd (recorderStop r) t v u = recorderStop r) ∧
    (∀ r : RecorderState, (recorderStart r).data.length = 0 ∧ (recorderStart r).recording = true) ∧
    (∀ (r : RecorderState) (entries : List (Nat × ℚ × List Char)),
      recorderDownload
          (entries.foldl (fun a e => recorderAdd a e.1 e.2.1 e.2.2) (recorderStart r)) =
        (if entries.isEmpty then (false, none) else (true, some entries))) ∧
    (∀ r : RecorderState, r.data = [] → recorderDownload r = (false, none)) := by
  refine ⟨?_, ?_, ?_, ?_, ?_, ?_⟩
  · intro r t v u h
    simp [recorderAdd, h]
  · intro r t v u h
    simp [recorderAdd, h]
  · intro r t v u
    simp [recorderAdd, recorderStop]
  · intro r
    exact ⟨rfl, rfl⟩
  · intro r entries
    rw [recorderAdd_foldl _ _ rfl]
    simp [recorderDownload, recorderStart]
  · intro r h
    simp [recorderDownload, h]

/-- Witness for `recorder_contract`: a fresh recorder ignores a reading,
records it after `start()`, ignores it after `stop()`, and downloads
exactly what was recorded. -/
theorem recorder_contract_witness :
    recorderAdd recorderInit 1 (7 : ℚ) ['g'] = recorderInit ∧
    (recorderAdd (recorderStart recorderInit) 1 (7 : ℚ) ['g']).data
        = (recorderStart recorderInit).data ++ [(1, (7 : ℚ), ['g'])] ∧
    recorderAdd (recorderStop (recorderStart recorderInit)) 2 (8 : ℚ) ['g']
        = recorderStop (recorderStart recorderInit) ∧
    recorderDownload
        ([((1 : Nat), (7 : ℚ), ['g'])].foldl
          (fun a e => recorderAdd a e.1 e.2.1 e.2.2) (recorderStart recorderInit)) =
      (true, some [((1 : Nat), (7 : ℚ), ['g'])]) ∧
    recorderDownload recorderInit = (false, none) :=
  ⟨recorder_contract.1 recorderInit 1 7 ['g'] rfl,
   recorder_contract.2.1 (recorderStart recorderInit) 1 7 ['g'] rfl,
   recorder_contract.2.2.1 (recorderStart recorderInit) 2 8 ['g'],
   by
     have h := recorder_contract.2.2.2.2.1 recorderInit [((1 : Nat), (7 : ℚ), ['g'])]
     simpa using h,
   recorder_contract.2.2.2.2.2 recorderInit rfl⟩

end Kern
